import Mathlib

/-!
Verification of the converthub-api python-examples repository.

This file shallowly embeds the job-lifecycle polling loops, the chunked
upload session protocol, the webhook receiver, and the download flows of
the repository, and proves or refutes the frozen specification claims
about them.  Every definition is translated from a concrete function of
the source tree; the file/line provenance is recorded in each doc
comment.
-/

set_option maxRecDepth 4000

/-! ## Polling model

Each poll of `GET /jobs/{job_id}` yields an HTTP status code and a JSON
body.  We record of the body only what the scripts read: whether
`.json()` parses, the `status` field, and whether
`result.download_url` is present. -/

/-- One response to a job-status request: the HTTP status code, whether
the body parses as JSON, the body's `status` field (if present), and the
body's `result.download_url` field (if present). -/
structure PollResponse where
  statusCode : Nat
  jsonOk : Bool
  status : Option String
  downloadUrl : Option String
  deriving DecidableEq

/-- The statuses on which `convert.py` (line 141), `convert-from-url.py`
(line 147) and `upload-large-file.py` (line 209) keep polling:
`['processing', 'queued', 'pending']`. -/
def convertContinue : List String := ["processing", "queued", "pending"]

/-- The statuses on which `ocr-image-to-text.py` (line 160) keeps
polling: `('processing', 'queued')`. -/
def ocrContinue : List String := ["processing", "queued"]

/-- The terminal job statuses named by the spec: completed, failed,
cancelled (also the list tested at `check-status.py` line 101). -/
def terminalStatuses : List String := ["completed", "failed", "cancelled"]

/-- How a polling loop ends: `finished status polls` when the while/for
condition stops the loop (the script then dispatches on `status`),
`httpError polls` when a poll response with HTTP status ≥ 400 hits a
`sys.exit(1)` inside the loop, `exn polls` when `.json()` raises and the
exception propagates to the script's generic handler. -/
inductive PollExit where
  | finished (status : String) (polls : Nat)
  | httpError (polls : Nat)
  | exn (polls : Nat)
  deriving DecidableEq

/-- The polling loop of `convert.py` lines 141-157 (same shape in
`convert-from-url.py` lines 147-163):

    while status in ['processing', 'queued', 'pending'] and attempts < max_attempts:
        time.sleep(2); attempts += 1
        response = requests.get(...)
        if response.status_code >= 400: print(...); sys.exit(1)
        job_status = response.json()          # raises -> outer except
        status = job_status.get('status', 'processing')

`fuel` only forces termination; the source guard `attempts < m` is kept
verbatim, and the invariant `fuel + attempts = m` holds at every call. -/
def convertPollGo (rs : Nat → PollResponse) (m : Nat) :
    Nat → Nat → String → PollExit
  | 0, attempts, status => .finished status attempts
  | fuel + 1, attempts, status =>
    if status ∈ convertContinue ∧ attempts < m then
      let r := rs attempts
      if 400 ≤ r.statusCode then .httpError (attempts + 1)
      else if r.jsonOk then
        convertPollGo rs m fuel (attempts + 1) (r.status.getD "processing")
      else .exn (attempts + 1)
    else .finished status attempts

/-- Entry point of the `convert.py` polling loop: attempt counter starts
at 0, the initial status comes from the submit response. -/
def convertPollRun (rs : Nat → PollResponse) (init : String) (m : Nat) : PollExit :=
  convertPollGo rs m m 0 init

/-- The polling loop of `ocr-image-to-text.py` lines 156-173:

    for _ in range(max_attempts):
        if status not in ('processing', 'queued'): break
        time.sleep(2)
        try:
            resp = requests.get(...); job_status = resp.json()
            status = job_status.get('status', 'unknown')
        except Exception:
            continue

The HTTP status code of the response is never inspected.  `fuel` is the
number of `range` iterations left. -/
def ocrPollGo (rs : Nat → PollResponse) : Nat → Nat → String → PollExit
  | 0, iters, status => .finished status iters
  | fuel + 1, iters, status =>
    if status ∈ ocrContinue then
      let r := rs iters
      if r.jsonOk then ocrPollGo rs fuel (iters + 1) (r.status.getD "unknown")
      else ocrPollGo rs fuel (iters + 1) status
    else .finished status iters

/-- Entry point of the OCR polling loop: `status = 'processing'` is set
just before the loop (line 156), `max_attempts = 150`. -/
def ocrPollRun (rs : Nat → PollResponse) (m : Nat) : PollExit :=
  ocrPollGo rs m 0 "processing"

/-- Status seen by the `convert.py` loop at the start of its k-th
iteration: the submit status for k = 0, afterwards the parsed body of
poll k-1 (with the `.get('status', 'processing')` default). -/
def cStatusAt (rs : Nat → PollResponse) (init : String) : Nat → String
  | 0 => init
  | k + 1 => ((rs k).status).getD "processing"

/-- Status seen by the OCR loop at the start of its k-th iteration
(initially the hardcoded `'processing'`, afterwards
`.get('status', 'unknown')` of the previous poll body); accurate when
every previous `.json()` parsed. -/
def oStatusAt (rs : Nat → PollResponse) : Nat → String
  | 0 => "processing"
  | k + 1 => ((rs k).status).getD "unknown"

/-- A response the polling loops treat as transport-successful: HTTP
status below 400 and a JSON body. -/
def pollOk (r : PollResponse) : Prop := r.statusCode < 400 ∧ r.jsonOk = true

instance (r : PollResponse) : Decidable (pollOk r) := by
  unfold pollOk; infer_instance

/-! ## The `check-status.py --watch` loop and the result dispatch -/

/-- How the `check-status.py --watch` loop ends (lines 278-329).
`completedShown`/`silentBreak` leave the function normally (process exit
0), `failedExit`/`httpError`/`exn` call `sys.exit(1)`, `cancelledExit`
calls `sys.exit(0)`, and `timeout` prints the advisory message and then
returns normally (process exit 0 — there is no `sys.exit` there). -/
inductive WatchExit where
  | completedShown (attempts : Nat)
  | failedExit (attempts : Nat)
  | cancelledExit (attempts : Nat)
  | httpError (attempts : Nat)
  | exn (attempts : Nat)
  | silentBreak (attempts : Nat)
  | timeout (attempts : Nat)
  deriving DecidableEq

/-- The watch loop of `check-status.py` lines 274-329:

    while attempts < max_attempts:
        response = requests.get(...)
        if response.status_code >= 400: ...; sys.exit(1)
        job = response.json(); status = job['status']   # raises -> outer except
        if status != previous_status:
            ... completed -> display, break
            ... failed -> sys.exit(1)
            ... cancelled -> sys.exit(0)
            previous_status = status
        if status in ['completed', 'failed', 'cancelled']: break
        time.sleep(2); attempts += 1
    if attempts >= max_attempts: print timeout advisory   (no exit)

The invariant `fuel + attempts = m` holds at every call, so the fuel-0
base case is exactly the `attempts < max_attempts` guard failing, after
which the `attempts >= max_attempts` advisory fires. -/
def watchGo (rs : Nat → PollResponse) (m : Nat) :
    Nat → Nat → Option String → WatchExit
  | 0, attempts, _ => .timeout attempts
  | fuel + 1, attempts, prev =>
    let r := rs attempts
    if 400 ≤ r.statusCode then .httpError attempts
    else if r.jsonOk = false ∨ r.status = none then .exn attempts
    else
      let s := r.status.getD ""
      if some s ≠ prev ∧ s = "completed" then .completedShown attempts
      else if some s ≠ prev ∧ s = "failed" then .failedExit attempts
      else if some s ≠ prev ∧ s = "cancelled" then .cancelledExit attempts
      else if s ∈ terminalStatuses then .silentBreak attempts
      else watchGo rs m fuel (attempts + 1)
             (if some s ≠ prev then some s else prev)

/-- Entry point of the watch loop: `attempts = 0`,
`previous_status = None`; at `check-status.py` line 275 the ceiling is
`max_attempts = 300`. -/
def watchRun (rs : Nat → PollResponse) (m : Nat) : WatchExit :=
  watchGo rs m m 0 none

/-- Process exit code produced by each watch-loop ending (`sys.exit`
calls at `check-status.py` lines 290, 313, 316; normal function return
otherwise, including after the line-328 timeout advisory). -/
def watchExitCode : WatchExit → Nat
  | .completedShown _ => 0
  | .failedExit _ => 1
  | .cancelledExit _ => 0
  | .httpError _ => 1
  | .exn _ => 1
  | .silentBreak _ => 0
  | .timeout _ => 0

/-- How `convert.py` ends after its polling loop: the result dispatch of
lines 162-212 plus the loop-internal exits. -/
inductive ConvertFinal where
  | success
  | failedMsg
  | timeoutMsg
  | pollHttpError
  | pollExn
  | dispatchExn
  deriving DecidableEq

/-- The whole poll-then-dispatch tail of `convert.py` (lines 137-212):
run the polling loop, then dispatch on the final status exactly as lines
162, 203 and 209 do.  When the loop performed `n ≥ 1` polls,
`job_status` is the body of poll `n - 1`; when it performed none,
`job_status` is still `None` and the `completed`/`failed` branches raise
(`None.get`), which the generic `except` turns into an error exit. -/
def convert_flow (rs : Nat → PollResponse) (init : String) (m : Nat) : ConvertFinal :=
  match convertPollRun rs init m with
  | .httpError _ => .pollHttpError
  | .exn _ => .pollExn
  | .finished st n =>
    match n with
    | 0 =>
      if st = "completed" ∨ st = "failed" then .dispatchExn else .timeoutMsg
    | k + 1 =>
      let body := rs k
      if st = "completed" ∧ body.downloadUrl.isSome then .success
      else if st = "failed" then .failedMsg
      else .timeoutMsg

/-- Process exit code of each `convert.py` ending: `sys.exit(1)` at
lines 154 (poll HTTP error), 207 (failed), 212 (timeout branch), 222
(unexpected exception); the success branch returns normally. -/
def convertExitCode : ConvertFinal → Nat
  | .success => 0
  | .failedMsg => 1
  | .timeoutMsg => 1
  | .pollHttpError => 1
  | .pollExn => 1
  | .dispatchExn => 1


/-- Shape of a watch-loop poll response that keeps the loop going: a
successful transport, a parsed body, and a non-terminal status. -/
def watchBenign (r : PollResponse) : Prop :=
  r.statusCode < 400 ∧ r.jsonOk = true ∧
    ∃ s, r.status = some s ∧ s ∉ terminalStatuses

/-! ## Chunked upload session (`upload-large-file.py`)

The file is a byte list; one chunk body is what `file.read(chunk_size)`
returns at the current position. -/

/-- Hard file-size cap checked at `upload-large-file.py` line 60:
`if file_size > 2147483648`. -/
def fileSizeCap : Nat := 2147483648

/-- `total_chunks = math.ceil(file_size / chunk_size)`
(`upload-large-file.py` line 73).  For the sizes the script admits
(file ≤ 2 GiB < 2^53), Python's float division is exact enough that
`math.ceil` of it equals the integer ceiling, which in `Nat` is
`(F + C - 1) / C`. -/
def totalChunks (F C : Nat) : Nat := (F + C - 1) / C

/-- The successive `file.read(chunk_size)` results of the chunk loop
(`upload-large-file.py` lines 141-143): `n` reads of at most `C` bytes,
each advancing the file position. -/
def readChunks (C : Nat) : Nat → List Nat → List (List Nat)
  | 0, _ => []
  | n + 1, rest => rest.take C :: readChunks C n (rest.drop C)

/-- All chunk bodies the script would read for a given file: the chunk
loop runs `total_chunks` times. -/
def chunksOf (file : List Nat) (C : Nat) : List (List Nat) :=
  readChunks C (totalChunks file.length C) file

/-- HTTP responses of the remote upload API: status codes for the init
request, for each chunk index, and for the finalize request. -/
structure UploadServer where
  initCode : Nat
  chunkCode : Nat → Nat
  completeCode : Nat

/-- One HTTP request issued by `upload_large_file`, in order. -/
inductive UploadReq where
  | init
  | chunk (index : Nat) (body : List Nat)
  | complete
  deriving DecidableEq

/-- How `upload_large_file` ends (before the post-upload polling):
`sizeError` (line 62), `initError` (line 122), `chunkError i`
(line 165), `completeError` (line 192) each call `sys.exit(1)`;
`ok` proceeds to the job poller with the returned job id. -/
inductive UploadResult where
  | sizeError
  | initError
  | chunkError (index : Nat)
  | completeError
  | ok
  deriving DecidableEq

/-- Exit behaviour of each `upload_large_file` ending: every error
branch is `sys.exit(1)`; on `ok` the script continues to the poller. -/
def uploadErrorExit : UploadResult → Option Nat
  | .sizeError => some 1
  | .initError => some 1
  | .chunkError _ => some 1
  | .completeError => some 1
  | .ok => none

/-- The chunk loop of `upload-large-file.py` lines 141-165:

    for chunk_index in range(total_chunks):
        chunk_data = file.read(chunk_size)
        chunk_response = requests.post(.../chunks/{chunk_index}, files=...)
        if chunk_response.status_code >= 400:
            ...; sys.exit(1)

Returns the requests sent (in order) and `some i` if chunk `i`'s
response aborted the session. -/
def chunkLoop (srv : UploadServer) (C : Nat) :
    Nat → Nat → List Nat → List UploadReq × Option Nat
  | 0, _, _ => ([], none)
  | n + 1, i, rest =>
    if 400 ≤ srv.chunkCode i then ([.chunk i (rest.take C)], some i)
    else
      let res := chunkLoop srv C n (i + 1) (rest.drop C)
      (.chunk i (rest.take C) :: res.1, res.2)

/-- `upload_large_file` (`upload-large-file.py` lines 39-198) up to the
hand-off to the job poller: size check, init request, sequential chunk
loop, finalize request.  Returns the full request trace and the ending.
(The API key is assumed configured and the input file readable, as in
the claims.) -/
def upload_large_file (srv : UploadServer) (file : List Nat)
    (chunkSizeMb : Nat) : List UploadReq × UploadResult :=
  if fileSizeCap < file.length then ([], .sizeError)
  else
    let C := chunkSizeMb * 1048576
    let tc := totalChunks file.length C
    if 400 ≤ srv.initCode then ([.init], .initError)
    else
      let res := chunkLoop srv C tc 0 file
      match res.2 with
      | some i => (.init :: res.1, .chunkError i)
      | none =>
        if 400 ≤ srv.completeCode then
          (.init :: res.1 ++ [.complete], .completeError)
        else
          (.init :: res.1 ++ [.complete], .ok)

/-- The chunk indices of a request trace, in send order. -/
def chunkIndices (trace : List UploadReq) : List Nat :=
  trace.filterMap fun r =>
    match r with
    | .chunk i _ => some i
    | _ => none

/-- The chunk bodies of a request trace, in send order. -/
def chunkBodies (trace : List UploadReq) : List (List Nat) :=
  trace.filterMap fun r =>
    match r with
    | .chunk _ b => some b
    | _ => none

/-! ## Webhook receiver (`webhook-receiver.py`)

HMAC-SHA256 itself is Python stdlib, not repository code; it enters the
model as an abstract function `hmacHex secret payload` standing for
`hmac.new(secret.encode(), payload, hashlib.sha256).hexdigest()`.
`hmac.compare_digest` on two strings returns `True` exactly when they
are equal (its constant-time execution is a timing property outside the
functional model). -/

/-- `verify_signature` (`webhook-receiver.py` lines 37-48):

    if not WEBHOOK_SECRET: return True
    expected_signature = hmac.new(secret, payload, sha256).hexdigest()
    return hmac.compare_digest(expected_signature, signature)

The empty string is the falsy "no secret configured" case. -/
def verify_signature (hmacHex : String → List Nat → String)
    (secret : String) (payload : List Nat) (signature : String) : Bool :=
  if secret = "" then true
  else hmacHex secret payload == signature

/-- A JSON value as far as the webhook responses need: strings, numbers
and `null` (Python `None` serialized by `jsonify`). -/
inductive JVal where
  | str (s : String)
  | num (n : Nat)
  | null
  deriving DecidableEq

/-- `jsonify` of an optional string: the value, or `null`. -/
def optStr : Option String → JVal
  | some s => .str s
  | none => .null

/-- The `error` object of a `conversion.failed` event. -/
structure WError where
  message : Option String
  code : Option String
  deriving DecidableEq

/-- The `result` object of a `conversion.completed` event. -/
structure WResult where
  format : Option String
  file_size : Option Nat
  download_url : Option String
  deriving DecidableEq

/-- The `progress` object of a `conversion.progress` event. -/
structure WProgress where
  percentage : Option Nat
  status : Option String
  deriving DecidableEq

/-- A webhook event object: the fields `process_webhook_event` reads
via `.get`. -/
structure EventData where
  event : Option String
  job_id : Option String
  result : Option WResult
  error : Option WError
  progress : Option WProgress
  session_id : Option String
  deriving DecidableEq

/-- Python's `str` of an optional string, as used by the f-string in
the unknown-event branch (`None` prints as `"None"`). -/
def pyShow (o : Option String) : String := o.getD "None"

/-- `process_webhook_event` (`webhook-receiver.py` lines 51-142): pure
dispatch on the `event` field; each branch returns the response dict
literal of the source, in insertion order. -/
def process_webhook_event (e : EventData) : List (String × JVal) :=
  if e.event = some "conversion.completed" then
    let result := e.result.getD ⟨none, none, none⟩
    [("status", .str "success"),
     ("message", .str "Conversion completed event processed"),
     ("job_id", optStr e.job_id),
     ("download_url", optStr result.download_url)]
  else if e.event = some "conversion.failed" then
    let error := e.error.getD ⟨none, none⟩
    [("status", .str "failed"),
     ("message", .str "Conversion failed event processed"),
     ("job_id", optStr e.job_id),
     ("error", optStr error.message)]
  else if e.event = some "conversion.progress" then
    let progress := e.progress.getD ⟨none, none⟩
    [("status", .str "progress"),
     ("message", .str "Progress update processed"),
     ("job_id", optStr e.job_id),
     ("progress", .num (progress.percentage.getD 0))]
  else if e.event = some "upload.completed" then
    [("status", .str "uploaded"),
     ("message", .str "Upload completed event processed"),
     ("job_id", optStr e.job_id)]
  else
    [("status", .str "unknown"),
     ("message", .str ("Unknown event type: " ++ pyShow e.event)),
     ("job_id", optStr e.job_id)]

/-- What `json.loads(raw_data)` produced: a parse failure
(`JSONDecodeError`, line 162), a JSON value that is not an object (so
`event_data.get` raises `AttributeError`, caught by the outer handler),
or an object. -/
inductive ParsedBody where
  | invalid
  | nonObject
  | obj (e : EventData)
  deriving DecidableEq

/-- The `/webhook` route handler (`webhook-receiver.py` lines 145-177):

    signature = request.headers.get('X-Webhook-Signature', '')
    if WEBHOOK_SECRET and not verify_signature(raw_data, signature): 401
    try: event_data = json.loads(raw_data)
    except json.JSONDecodeError: 400
    result = process_webhook_event(event_data)   # raises -> except: 500
    return jsonify(result), 200

Returns the HTTP status and the JSON response body. -/
def webhook (hmacHex : String → List Nat → String) (secret : String)
    (rawBody : List Nat) (sigHeader : Option String)
    (parsed : ParsedBody) : Nat × List (String × JVal) :=
  let signature := sigHeader.getD ""
  if secret ≠ "" ∧ verify_signature hmacHex secret rawBody signature = false then
    (401, [("error", .str "Invalid signature")])
  else
    match parsed with
    | .invalid => (400, [("error", .str "Invalid JSON")])
    | .nonObject => (500, [("error", .str "Internal server error")])
    | .obj e => (200, process_webhook_event e)

/-! ## Interrupted downloads (`download-result.py`, `convert.py`) -/

/-- Events driving a streamed download: a received chunk of bytes, or a
keyboard interrupt delivered at that point. -/
inductive DlEvent where
  | chunk (data : List Nat)
  | interrupt
  deriving DecidableEq

/-- The download of `download-result.py` (lines 155-183): the write
loop

    with open(output_file, 'wb') as file:
        for chunk in response.iter_content(chunk_size=8192):
            if chunk: file.write(chunk); pbar.update(len(chunk))

together with its `except KeyboardInterrupt` handler (lines 177-183),
which unlinks the partially-written file and exits 1.  Returns the
final on-disk content of the output file (`none` = no file) and the
process exit code. -/
def downloadResultGo : List Nat → List DlEvent → Option (List Nat) × Nat
  | written, [] => (some written, 0)
  | written, .chunk d :: rest =>
    downloadResultGo (if d.isEmpty then written else written ++ d) rest
  | _, .interrupt :: _ => (none, 1)

/-- Entry point: `open(output_file, 'wb')` truncates the file to empty
before the loop. -/
def downloadResultRun (events : List DlEvent) : Option (List Nat) × Nat :=
  downloadResultGo [] events

/-- The download of `convert.py` (lines 189-197) with its
`except KeyboardInterrupt` handler (lines 217-219), which only prints
and exits 1 — there is no unlink, so the partial file stays on disk. -/
def convertDownloadGo : List Nat → List DlEvent → Option (List Nat) × Nat
  | written, [] => (some written, 0)
  | written, .chunk d :: rest =>
    convertDownloadGo (if d.isEmpty then written else written ++ d) rest
  | written, .interrupt :: _ => (some written, 1)

/-- Entry point for the `convert.py` download loop. -/
def convertDownloadRun (events : List DlEvent) : Option (List Nat) × Nat :=
  convertDownloadGo [] events

/-- Bytes written by a run of download events (empty chunks skipped by
the `if chunk:` guard, though they contribute nothing anyway). -/
def writtenBytes (events : List DlEvent) : List Nat :=
  (events.filterMap fun e =>
    match e with
    | .chunk d => some d
    | .interrupt => none).flatten

/-- No interrupt occurs in the event list. -/
def interruptFree (events : List DlEvent) : Prop :=
  DlEvent.interrupt ∉ events

instance (events : List DlEvent) : Decidable (interruptFree events) := by
  unfold interruptFree
  infer_instance

/-! ## Job response resolution in `download-result.py` -/

/-- The slice of a job descriptor that `download_result` reads before
downloading. -/
structure JobDesc where
  status : Option String
  downloadUrl : Option String
  deriving DecidableEq

/-- The JSON body of `GET /jobs/{job_id}` as `download-result.py`
distinguishes it: a dict, or a list of dicts
(`isinstance(job_response, list)`, line 70). -/
inductive JobsBody where
  | obj (j : JobDesc)
  | arr (l : List JobDesc)
  deriving DecidableEq

/-- Where `download_result` (lines 31-172) goes before the actual file
transfer: request error, empty-list error, job not completed, missing
download URL, or a download attempt on the resolved URL. -/
inductive DRPhase where
  | httpError
  | emptyList
  | notCompleted (st : String)
  | noUrl
  | download (url : String)
  deriving DecidableEq

/-- Dispatch on one resolved job dict: lines 80-106 and 140-144 of
`download-result.py` (`status = job.get('status', 'unknown')`; any
non-completed status exits; then the `download_url` checks). -/
def drResolve (j : JobDesc) : DRPhase :=
  let st := j.status.getD "unknown"
  if st ≠ "completed" then .notCompleted st
  else
    match j.downloadUrl with
    | none => .noUrl
    | some u => .download u

/-- `download_result` up to the download request (lines 54-144): HTTP
error check, then the dict/list branching of lines 67-80:

    if isinstance(job_response, list):
        if len(job_response) > 0: job = job_response[0]
        else: print('Empty response from API'); sys.exit(1)
    else: job = job_response
-/
def download_result (code : Nat) (body : JobsBody) : DRPhase :=
  if 400 ≤ code then .httpError
  else
    match body with
    | .obj j => drResolve j
    | .arr [] => .emptyList
    | .arr (j :: _) => drResolve j

/-- Whether the phase reaches the `requests.get(download_url)` call. -/
def drAttemptsDownload : DRPhase → Bool
  | .download _ => true
  | _ => false

/-- Exit behaviour of each phase: every error path is `sys.exit(1)`;
on `download` the script proceeds with the transfer. -/
def drErrorExit : DRPhase → Option Nat
  | .httpError => some 1
  | .emptyList => some 1
  | .notCompleted _ => some 1
  | .noUrl => some 1
  | .download _ => none

/-! ## Lemmas -/

/-! ## Characterization lemmas for the polling loops -/

/-- If every response up to the ceiling parses and keeps the status
inside the continue set, the `convert.py` loop runs to the ceiling:
exactly `m` polls, ending on the status of the last body. -/
lemma convertPollGo_timeout (rs : Nat → PollResponse) (init : String) (m : Nat)
    (hok : ∀ k, k < m → pollOk (rs k))
    (hcont : ∀ k, k < m → cStatusAt rs init k ∈ convertContinue) :
    ∀ fuel j, j + fuel = m →
      convertPollGo rs m fuel j (cStatusAt rs init j) =
        .finished (cStatusAt rs init m) m := by
  intro fuel
  induction fuel with
  | zero =>
    intro j hj
    have hjm : j = m := by omega
    subst hjm
    rfl
  | succ fuel ih =>
    intro j hj
    have hjm : j < m := by omega
    obtain ⟨hcode, hjson⟩ := hok j hjm
    have hcj := hcont j hjm
    simp only [convertPollGo]
    rw [if_pos ⟨hcj, hjm⟩, if_neg (by omega), if_pos hjson]
    exact ih (j + 1) (by omega)

/-- If the status leaves the continue set for the first time after `n`
polls (all earlier responses being transport-successful), the
`convert.py` loop stops right there, with that status and `n` polls. -/
lemma convertPollGo_stop (rs : Nat → PollResponse) (init : String) (m n : Nat)
    (hok : ∀ k, k < n → pollOk (rs k))
    (hcont : ∀ k, k < n → cStatusAt rs init k ∈ convertContinue)
    (hstop : cStatusAt rs init n ∉ convertContinue)
    (hnm : n ≤ m) :
    ∀ fuel j, j + fuel = m → j ≤ n →
      convertPollGo rs m fuel j (cStatusAt rs init j) =
        .finished (cStatusAt rs init n) n := by
  intro fuel
  induction fuel with
  | zero =>
    intro j hj hjn
    have hjm : j = m := by omega
    have hn : j = n := by omega
    subst hn
    rfl
  | succ fuel ih =>
    intro j hj hjn
    have hjm : j < m := by omega
    simp only [convertPollGo]
    rcases Nat.lt_or_ge j n with hlt | hge
    · obtain ⟨hcode, hjson⟩ := hok j hlt
      rw [if_pos ⟨hcont j hlt, hjm⟩, if_neg (by omega), if_pos hjson]
      exact ih (j + 1) (by omega) (by omega)
    · have hn : j = n := by omega
      subst hn
      rw [if_neg (by intro h; exact hstop h.1)]

/-- If all statuses through poll `n` stay in the continue set but the
response to poll `n` carries HTTP status ≥ 400, the `convert.py` loop
aborts there with the request-level error exit, after `n + 1` polls. -/
lemma convertPollGo_httpAbort (rs : Nat → PollResponse) (init : String) (m n : Nat)
    (hok : ∀ k, k < n → pollOk (rs k))
    (hcont : ∀ k, k ≤ n → cStatusAt rs init k ∈ convertContinue)
    (herr : 400 ≤ (rs n).statusCode)
    (hnm : n < m) :
    ∀ fuel j, j + fuel = m → j ≤ n →
      convertPollGo rs m fuel j (cStatusAt rs init j) = .httpError (n + 1) := by
  intro fuel
  induction fuel with
  | zero =>
    intro j hj hjn
    omega
  | succ fuel ih =>
    intro j hj hjn
    have hjm : j < m := by omega
    simp only [convertPollGo]
    rcases Nat.lt_or_ge j n with hlt | hge
    · obtain ⟨hcode, hjson⟩ := hok j hlt
      rw [if_pos ⟨hcont j (by omega), hjm⟩, if_neg (by omega), if_pos hjson]
      exact ih (j + 1) (by omega) (by omega)
    · have hn : j = n := by omega
      subst hn
      rw [if_pos ⟨hcont j (by omega), hjm⟩, if_pos herr]

/-- If every body up to the ceiling parses and keeps the status inside
the OCR continue set, the OCR loop runs to the ceiling: exactly `m`
polls, ending on the status of the last body. -/
lemma ocrPollGo_timeout (rs : Nat → PollResponse) (m : Nat)
    (hjson : ∀ k, k < m → (rs k).jsonOk = true)
    (hcont : ∀ k, k < m → oStatusAt rs k ∈ ocrContinue) :
    ∀ fuel j, j + fuel = m →
      ocrPollGo rs fuel j (oStatusAt rs j) = .finished (oStatusAt rs m) m := by
  intro fuel
  induction fuel with
  | zero =>
    intro j hj
    have hjm : j = m := by omega
    subst hjm
    rfl
  | succ fuel ih =>
    intro j hj
    have hjm : j < m := by omega
    simp only [ocrPollGo]
    rw [if_pos (hcont j hjm), if_pos (hjson j hjm)]
    exact ih (j + 1) (by omega)

/-- If the status leaves the OCR continue set for the first time after
`n` polls (all earlier bodies parsing), the OCR loop stops right there,
with that status and `n` polls. -/
lemma ocrPollGo_stop (rs : Nat → PollResponse) (m n : Nat)
    (hjson : ∀ k, k < n → (rs k).jsonOk = true)
    (hcont : ∀ k, k < n → oStatusAt rs k ∈ ocrContinue)
    (hstop : oStatusAt rs n ∉ ocrContinue)
    (hnm : n ≤ m) :
    ∀ fuel j, j + fuel = m → j ≤ n →
      ocrPollGo rs fuel j (oStatusAt rs j) = .finished (oStatusAt rs n) n := by
  intro fuel
  induction fuel with
  | zero =>
    intro j hj hjn
    have hn : j = n := by omega
    subst hn
    rfl
  | succ fuel ih =>
    intro j hj hjn
    simp only [ocrPollGo]
    rcases Nat.lt_or_ge j n with hlt | hge
    · rw [if_pos (hcont j hlt), if_pos (hjson j hlt)]
      exact ih (j + 1) (by omega) (by omega)
    · have hn : j = n := by omega
      subst hn
      rw [if_neg hstop]

/-- The OCR loop never reads the HTTP status code: two response
sequences agreeing on body parse-success and `status` fields (but with
arbitrary, possibly erroneous, HTTP codes) drive it identically. -/
lemma ocrPollGo_ignores_codes (rs rs2 : Nat → PollResponse)
    (h : ∀ k, (rs k).jsonOk = (rs2 k).jsonOk ∧ (rs k).status = (rs2 k).status) :
    ∀ fuel j status, ocrPollGo rs fuel j status = ocrPollGo rs2 fuel j status := by
  intro fuel
  induction fuel with
  | zero => intro j status; rfl
  | succ fuel ih =>
    intro j status
    simp only [ocrPollGo]
    by_cases hc : status ∈ ocrContinue
    · rw [if_pos hc, if_pos hc, (h j).1, (h j).2]
      by_cases hj : (rs2 j).jsonOk
      · rw [if_pos hj, if_pos hj]
        exact ih (j + 1) _
      · rw [if_neg hj, if_neg hj]
        exact ih (j + 1) _
    · rw [if_neg hc, if_neg hc]

/-- A status outside the terminal list differs from each of the three
terminal statuses. -/
lemma notTerminal_ne {s : String} (h : s ∉ terminalStatuses) :
    s ≠ "completed" ∧ s ≠ "failed" ∧ s ≠ "cancelled" := by
  refine ⟨?_, ?_, ?_⟩ <;> rintro rfl <;> exact h (by decide)

/-- One benign iteration of the watch loop just advances the counter and
the remembered previous status. -/
lemma watchGo_benign_step (rs : Nat → PollResponse) (m fuel j : Nat)
    (prev : Option String) (hb : watchBenign (rs j)) :
    watchGo rs m (fuel + 1) j prev =
      watchGo rs m fuel (j + 1)
        (if some ((rs j).status.getD "") ≠ prev
          then some ((rs j).status.getD "") else prev) := by
  obtain ⟨hcode, hjson, s, hs, hterm⟩ := hb
  obtain ⟨h1, h2, h3⟩ := notTerminal_ne hterm
  have hgd : (rs j).status.getD "" = s := by rw [hs]; rfl
  simp only [watchGo, hgd]
  rw [if_neg (by omega), if_neg (by simp [hjson, hs])]
  rw [if_neg (by rintro ⟨-, h⟩; exact h1 h),
      if_neg (by rintro ⟨-, h⟩; exact h2 h),
      if_neg (by rintro ⟨-, h⟩; exact h3 h),
      if_neg hterm]

/-- While every response is benign, the watch loop of `check-status.py`
runs to its ceiling and ends in the timeout advisory (after which the
function returns normally). -/
lemma watchGo_timeout (rs : Nat → PollResponse) (m : Nat)
    (hpre : ∀ k, k < m → watchBenign (rs k)) :
    ∀ fuel j prev, j + fuel = m → watchGo rs m fuel j prev = .timeout m := by
  intro fuel
  induction fuel with
  | zero =>
    intro j prev hj
    have hjm : j = m := by omega
    subst hjm
    rfl
  | succ fuel ih =>
    intro j prev hj
    rw [watchGo_benign_step rs m fuel j prev (hpre j (by omega))]
    exact ih (j + 1) _ (by omega)

/-- If the first `n` responses are benign and response `n` is a
successful transport reporting status `cancelled`, the watch loop exits
through the `sys.exit(0)` cancelled branch after seeing it. -/
lemma watchGo_cancelled (rs : Nat → PollResponse) (m n : Nat)
    (hpre : ∀ k, k < n → watchBenign (rs k))
    (hcode : (rs n).statusCode < 400) (hjson : (rs n).jsonOk = true)
    (hst : (rs n).status = some "cancelled")
    (hnm : n < m) :
    ∀ fuel j prev, j + fuel = m → j ≤ n → prev ≠ some "cancelled" →
      watchGo rs m fuel j prev = .cancelledExit n := by
  intro fuel
  induction fuel with
  | zero =>
    intro j prev hj hjn hprev
    omega
  | succ fuel ih =>
    intro j prev hj hjn hprev
    rcases Nat.lt_or_ge j n with hlt | hge
    · have hb := hpre j hlt
      rw [watchGo_benign_step rs m fuel j prev hb]
      obtain ⟨-, -, s, hs, hterm⟩ := hb
      have hgd : (rs j).status.getD "" = s := by rw [hs]; rfl
      refine ih (j + 1) _ (by omega) (by omega) ?_
      rw [hgd]
      by_cases hne : some s ≠ prev
      · rw [if_pos hne]
        intro hcontra
        have : s = "cancelled" := by injection hcontra
        exact (notTerminal_ne hterm).2.2 this
      · rw [if_neg hne]
        exact hprev
    · have hn : j = n := by omega
      subst hn
      have hgd : (rs j).status.getD "" = "cancelled" := by rw [hst]; rfl
      simp only [watchGo, hgd]
      rw [if_neg (by omega), if_neg (by simp [hjson, hst])]
      rw [if_neg (by rintro ⟨-, h⟩; exact absurd h (by decide)),
          if_neg (by rintro ⟨-, h⟩; exact absurd h (by decide)),
          if_pos ⟨Ne.symm hprev, trivial⟩]

/-- If the first `n` responses are benign and response `n` has HTTP
status ≥ 400, the watch loop aborts there with the request-level error
exit (`sys.exit(1)` at `check-status.py` line 290). -/
lemma watchGo_httpAbort (rs : Nat → PollResponse) (m n : Nat)
    (hpre : ∀ k, k < n → watchBenign (rs k))
    (herr : 400 ≤ (rs n).statusCode)
    (hnm : n < m) :
    ∀ fuel j prev, j + fuel = m → j ≤ n →
      watchGo rs m fuel j prev = .httpError n := by
  intro fuel
  induction fuel with
  | zero =>
    intro j prev hj hjn
    omega
  | succ fuel ih =>
    intro j prev hj hjn
    rcases Nat.lt_or_ge j n with hlt | hge
    · rw [watchGo_benign_step rs m fuel j prev (hpre j hlt)]
      exact ih (j + 1) _ (by omega) (by omega)
    · have hn : j = n := by omega
      subst hn
      simp only [watchGo]
      rw [if_pos herr]

/-! ## Arithmetic of the chunk count -/

/-- `total_chunks` chunks of size `C` cover the file:
`F ≤ totalChunks F C * C`. -/
lemma le_totalChunks_mul (F C : Nat) (hC : 0 < C) :
    F ≤ totalChunks F C * C := by
  by_contra h
  push_neg at h
  have hsucc : (totalChunks F C + 1) * C = totalChunks F C * C + C :=
    Nat.succ_mul _ _
  obtain ⟨A, hA⟩ : ∃ A, totalChunks F C * C = A := ⟨_, rfl⟩
  have h2 : (totalChunks F C + 1) * C ≤ F + C - 1 := by
    rw [hsucc, hA]
    rw [hA] at h
    omega
  have h3 : totalChunks F C + 1 ≤ (F + C - 1) / C :=
    (Nat.le_div_iff_mul_le hC).mpr h2
  have h4 : (F + C - 1) / C = totalChunks F C := rfl
  omega

/-- All but the last of the `total_chunks` chunks lie strictly inside
the file: `(totalChunks F C - 1) * C < F` for a non-empty file. -/
lemma totalChunks_pred_mul_lt (F C : Nat) (hC : 0 < C) (hF : 0 < F) :
    (totalChunks F C - 1) * C < F := by
  rcases Nat.eq_zero_or_pos (totalChunks F C) with h0 | hpos
  · rw [h0]
    simpa using hF
  · obtain ⟨p, hp⟩ : ∃ p, totalChunks F C = p + 1 := ⟨totalChunks F C - 1, by omega⟩
    have hd : totalChunks F C * C ≤ F + C - 1 := Nat.div_mul_le_self _ _
    rw [hp] at hd
    have hsucc : (p + 1) * C = p * C + C := Nat.succ_mul _ _
    rw [hp]
    simp only [Nat.add_sub_cancel]
    obtain ⟨A, hA⟩ : ∃ A, p * C = A := ⟨_, rfl⟩
    rw [hA]
    rw [hsucc, hA] at hd
    omega

/-- A non-empty file has at least one chunk. -/
lemma totalChunks_pos (F C : Nat) (hC : 0 < C) (hF : 0 < F) :
    0 < totalChunks F C := by
  by_contra h
  have h0 : totalChunks F C = 0 := by omega
  have := le_totalChunks_mul F C hC
  rw [h0] at this
  omega

/-- The length of the final chunk, `F - (tc - 1) * C`, is what the spec
calls "`F mod C`, or `C` when `C` divides `F`". -/
lemma last_chunk_len (F C p : Nat) (hC : 0 < C)
    (h1 : p * C < F) (h2 : F ≤ (p + 1) * C) :
    F - p * C = if F % C = 0 then C else F % C := by
  have hdm := Nat.div_add_mod F C
  by_cases h0 : F % C = 0
  · rw [if_pos h0]
    rw [h0, Nat.add_zero] at hdm
    have hgt : p < F / C := by
      apply Nat.lt_of_mul_lt_mul_left (a := C)
      rw [hdm, Nat.mul_comm C p]
      exact h1
    have hle : F / C ≤ p + 1 := by
      apply Nat.le_of_mul_le_mul_left ?_ hC
      rw [hdm, Nat.mul_comm C (p + 1)]
      exact h2
    have hd : F / C = p + 1 := by omega
    rw [hd] at hdm
    rw [Nat.mul_succ, Nat.mul_comm C p] at hdm
    omega
  · rw [if_neg h0]
    have hlt : F < (p + 1) * C := by
      rcases Nat.lt_or_ge F ((p + 1) * C) with h | h
      · exact h
      · exfalso
        have he : F = (p + 1) * C := by omega
        rw [he, Nat.mul_mod_left] at h0
        exact h0 rfl
    have hd : F / C = p := Nat.div_eq_of_lt_le (Nat.le_of_lt h1) hlt
    rw [hd, Nat.mul_comm C p] at hdm
    obtain ⟨A, hA⟩ : ∃ A, p * C = A := ⟨_, rfl⟩
    rw [hA] at hdm ⊢
    omega

/-! ## Structure of the chunk reads -/

/-- The chunk loop performs exactly `n` reads. -/
lemma readChunks_length (C : Nat) :
    ∀ n (f : List Nat), (readChunks C n f).length = n := by
  intro n
  induction n with
  | zero => intro f; rfl
  | succ n ih =>
    intro f
    simp only [readChunks, List.length_cons, ih]

/-- When the chunk count covers the file, the concatenation of all
chunks read is the file itself. -/
lemma readChunks_join (C : Nat) :
    ∀ n (f : List Nat), f.length ≤ n * C → (readChunks C n f).flatten = f := by
  intro n
  induction n with
  | zero =>
    intro f h
    have hf : f = [] := List.eq_nil_of_length_eq_zero (by omega)
    rw [hf]
    rfl
  | succ n ih =>
    intro f h
    simp only [readChunks, List.flatten_cons]
    rw [ih (f.drop C) ?side]
    · exact List.take_append_drop C f
    case side =>
      rw [List.length_drop]
      rw [Nat.succ_mul] at h
      obtain ⟨A, hA⟩ : ∃ A, n * C = A := ⟨_, rfl⟩
      rw [hA] at h ⊢
      omega

/-- The i-th chunk read is `take C` after dropping `i` chunks' worth of
bytes. -/
lemma readChunks_getElem? (C : Nat) :
    ∀ n i (f : List Nat), i < n →
      (readChunks C n f)[i]? = some ((f.drop (i * C)).take C) := by
  intro n
  induction n with
  | zero => intro i f h; omega
  | succ n ih =>
    intro i f h
    cases i with
    | zero =>
      simp [readChunks]
    | succ i =>
      simp only [readChunks, List.getElem?_cons_succ]
      rw [ih i (f.drop C) (by omega)]
      rw [List.drop_drop]
      rw [Nat.succ_mul, Nat.add_comm (i * C) C]

/-- The chunk indices sent by the chunk loop are consecutive, starting
at the loop's first index: the trace is inherently sequential. -/
lemma chunkLoop_indices (srv : UploadServer) (C : Nat) :
    ∀ n i rest,
      chunkIndices (chunkLoop srv C n i rest).1 =
        List.range' i (chunkLoop srv C n i rest).1.length := by
  intro n
  induction n with
  | zero => intro i rest; rfl
  | succ n ih =>
    intro i rest
    by_cases he : 400 ≤ srv.chunkCode i
    · simp [chunkLoop, he, chunkIndices]
    · simp only [chunkLoop, if_neg he]
      simp only [chunkIndices, List.filterMap_cons, List.length_cons]
      rw [List.range'_succ]
      simp only [chunkIndices] at ih
      rw [ih (i + 1) (rest.drop C)]

/-- The chunk loop returns `none` exactly when every chunk response in
its range is an HTTP success. -/
lemma chunkLoop_none_iff (srv : UploadServer) (C : Nat) :
    ∀ n i rest,
      (chunkLoop srv C n i rest).2 = none ↔
        ∀ k, k < n → srv.chunkCode (i + k) < 400 := by
  intro n
  induction n with
  | zero =>
    intro i rest
    simp [chunkLoop]
  | succ n ih =>
    intro i rest
    by_cases he : 400 ≤ srv.chunkCode i
    · simp only [chunkLoop, if_pos he]
      constructor
      · intro h; cases h
      · intro h
        have h0 := h 0 (by omega)
        rw [Nat.add_zero] at h0
        omega
    · simp only [chunkLoop, if_neg he]
      rw [ih (i + 1) (rest.drop C)]
      constructor
      · intro h k hk
        cases k with
        | zero => rw [Nat.add_zero]; omega
        | succ k =>
          have heq : i + (k + 1) = (i + 1) + k := by omega
          rw [heq]
          exact h k (by omega)
      · intro h k hk
        have heq : (i + 1) + k = i + (k + 1) := by omega
        rw [heq]
        exact h (k + 1) (by omega)

/-- When the chunk loop succeeds it sends exactly its whole range. -/
lemma chunkLoop_none_length (srv : UploadServer) (C : Nat) :
    ∀ n i rest, (chunkLoop srv C n i rest).2 = none →
      (chunkLoop srv C n i rest).1.length = n := by
  intro n
  induction n with
  | zero => intro i rest _; rfl
  | succ n ih =>
    intro i rest h
    by_cases he : 400 ≤ srv.chunkCode i
    · simp [chunkLoop, he] at h
    · simp only [chunkLoop, if_neg he] at h ⊢
      simp only [List.length_cons]
      rw [ih (i + 1) (rest.drop C) h]

/-- When the chunk loop aborts at index `j`: `j` is in range, its
response was an HTTP error, every earlier response was a success, and
the loop stopped right after sending chunk `j` (no retry, nothing
further). -/
lemma chunkLoop_some (srv : UploadServer) (C : Nat) :
    ∀ n i rest j, (chunkLoop srv C n i rest).2 = some j →
      i ≤ j ∧ j < i + n ∧ 400 ≤ srv.chunkCode j ∧
        (∀ k, i ≤ k → k < j → srv.chunkCode k < 400) ∧
        (chunkLoop srv C n i rest).1.length = j + 1 - i := by
  intro n
  induction n with
  | zero => intro i rest j h; cases h
  | succ n ih =>
    intro i rest j h
    by_cases he : 400 ≤ srv.chunkCode i
    · simp only [chunkLoop, if_pos he] at h ⊢
      cases h
      refine ⟨by omega, by omega, he, ?_, by simp⟩
      intro k h1 h2
      omega
    · simp only [chunkLoop, if_neg he] at h ⊢
      obtain ⟨ha, hb, hc, hd, hlen⟩ := ih (i + 1) (rest.drop C) j h
      refine ⟨by omega, by omega, hc, ?_, ?_⟩
      · intro k h1 h2
        rcases Nat.eq_or_lt_of_le h1 with rfl | hlt
        · omega
        · exact hd k (by omega) h2
      · simp only [List.length_cons, hlen]
        omega

/-- When every chunk response in range is a success, the chunk bodies
sent are exactly the successive `file.read(chunk_size)` results. -/
lemma chunkLoop_bodies (srv : UploadServer) (C : Nat) :
    ∀ n i rest, (∀ k, k < n → srv.chunkCode (i + k) < 400) →
      chunkBodies (chunkLoop srv C n i rest).1 = readChunks C n rest := by
  intro n
  induction n with
  | zero => intro i rest _; rfl
  | succ n ih =>
    intro i rest h
    have he : ¬ 400 ≤ srv.chunkCode i := by
      have h0 := h 0 (by omega)
      rw [Nat.add_zero] at h0
      omega
    simp only [chunkLoop, if_neg he, readChunks]
    simp only [chunkBodies, List.filterMap_cons]
    simp only [chunkBodies] at ih
    rw [ih (i + 1) (rest.drop C)]
    intro k hk
    have heq : (i + 1) + k = i + (k + 1) := by omega
    rw [heq]
    exact h (k + 1) (by omega)

/-- The chunk loop never issues the finalize request. -/
lemma chunkLoop_no_complete (srv : UploadServer) (C : Nat) :
    ∀ n i rest, UploadReq.complete ∉ (chunkLoop srv C n i rest).1 := by
  intro n
  induction n with
  | zero => intro i rest h; cases h
  | succ n ih =>
    intro i rest h
    by_cases he : 400 ≤ srv.chunkCode i
    · simp [chunkLoop, he] at h
    · simp only [chunkLoop, if_neg he, List.mem_cons] at h
      rcases h with h | h
      · cases h
      · exact ih (i + 1) (rest.drop C) h

/-- When the `convert.py` polling loop ends with a status that is
neither `completed` nor `failed`, the result dispatch falls into the
timeout branch (lines 209-212). -/
lemma convert_flow_of_finished (rs : Nat → PollResponse) (init : String)
    (m : Nat) (st : String) (n : Nat)
    (hrun : convertPollRun rs init m = .finished st n)
    (h1 : st ≠ "completed") (h2 : st ≠ "failed") :
    convert_flow rs init m = .timeoutMsg := by
  simp only [convert_flow, hrun]
  cases n with
  | zero => simp [h1, h2]
  | succ k => simp [h1, h2]

/-- A status in the convert continue set is neither `completed` nor
`failed`. -/
lemma convertContinue_ne {s : String} (h : s ∈ convertContinue) :
    s ≠ "completed" ∧ s ≠ "failed" := by
  revert h
  revert s
  decide

/-! ## Claims -/

/-- **C1** (amended).  Each polling loop sleeps and re-polls exactly as
long as the reported status is inside its continue set — which is
`{processing, queued, pending}` for the convert/url/chunked flows but
only `{processing, queued}` for the OCR flow — and the attempt ceiling
is not reached.  The loop stops as soon as the status leaves the
continue set (in particular at every terminal status, returning that
status after `n` polls), and a run whose statuses all stay inside the
continue set performs exactly `max_attempts` polls and falls into the
timeout outcome.  Terminal statuses are never in a continue set. -/
theorem poller_continue_set_characterization
    (rs : Nat → PollResponse) (init : String) (m n : Nat)
    (hok : ∀ k, k < m → pollOk (rs k)) :
    ((∀ k, k < m → cStatusAt rs init k ∈ convertContinue) →
        convertPollRun rs init m = .finished (cStatusAt rs init m) m)
  ∧ (n ≤ m → (∀ k, k < n → cStatusAt rs init k ∈ convertContinue) →
        cStatusAt rs init n ∈ terminalStatuses →
        convertPollRun rs init m = .finished (cStatusAt rs init n) n)
  ∧ ((∀ k, k < m → oStatusAt rs k ∈ ocrContinue) →
        ocrPollRun rs m = .finished (oStatusAt rs m) m)
  ∧ (n ≤ m → (∀ k, k < n → oStatusAt rs k ∈ ocrContinue) →
        oStatusAt rs n ∈ terminalStatuses →
        ocrPollRun rs m = .finished (oStatusAt rs n) n)
  ∧ (∀ s, s ∈ terminalStatuses → s ∉ convertContinue ∧ s ∉ ocrContinue) := by
  have hterm_not : ∀ s, s ∈ terminalStatuses →
      s ∉ convertContinue ∧ s ∉ ocrContinue := by decide
  refine ⟨?_, ?_, ?_, ?_, hterm_not⟩
  · intro hcont
    exact convertPollGo_timeout rs init m hok hcont m 0 (by omega)
  · intro hnm hcont hterm
    exact convertPollGo_stop rs init m n (fun k hk => hok k (by omega)) hcont
      ((hterm_not _ hterm).1) hnm m 0 (by omega) (by omega)
  · intro hcont
    exact ocrPollGo_timeout rs m (fun k hk => (hok k hk).2) hcont m 0 (by omega)
  · intro hnm hcont hterm
    exact ocrPollGo_stop rs m n (fun k hk => (hok k (by omega)).2) hcont
      ((hterm_not _ hterm).2) hnm m 0 (by omega) (by omega)

/-- **C1** counterexample.  Claim C1 as stated is false: a status
sequence that never reaches a terminal state does not always yield the
timeout outcome after exactly `max_attempts` polls.  The OCR loop
(ceiling 150) stops after a single poll on status `pending` — which the
claim places in the continue set — and the convert loop (ceiling 60)
stops after a single poll on any unrecognized non-terminal status. -/
theorem poll_loops_stop_outside_continue_set :
    (ocrPollRun (fun _ => ⟨200, true, some "pending", none⟩) 150 =
        .finished "pending" 1
      ∧ "pending" ∉ terminalStatuses ∧ (1 : Nat) ≠ 150)
  ∧ (convertPollRun (fun _ => ⟨200, true, some "mystery", none⟩) "processing" 60 =
        .finished "mystery" 1
      ∧ "mystery" ∉ terminalStatuses ∧ (1 : Nat) ≠ 60) :=
  ⟨⟨rfl, by decide, by decide⟩, ⟨rfl, by decide, by decide⟩⟩

/-- Witness for C1: a convert-flow run `queued, processing, processing,
completed` stops at the terminal status after 3 polls (the spec's
scenario), and an all-`queued` OCR run times out at its ceiling. -/
theorem poller_continue_set_characterization_witness :
    convertPollRun
        (fun k => if k < 2 then ⟨200, true, some "processing", none⟩
          else ⟨200, true, some "completed", some "u"⟩) "queued" 60 =
      .finished "completed" 3
  ∧ ocrPollRun (fun _ => ⟨200, true, some "queued", none⟩) 2 =
      .finished "queued" 2 :=
  ⟨(poller_continue_set_characterization
      (fun k => if k < 2 then ⟨200, true, some "processing", none⟩
        else ⟨200, true, some "completed", some "u"⟩) "queued" 60 3
      (by decide)).2.1 (by omega) (by decide) (by decide),
   (poller_continue_set_characterization
      (fun _ => ⟨200, true, some "queued", none⟩) "processing" 2 0
      (by decide)).2.2.1 (by decide)⟩

/-- **C2** (amended).  In the convert/url/chunked polling loops and the
watch loop, the first poll response with HTTP status ≥ 400 aborts the
wait immediately with the request-level error exit (`sys.exit(1)`),
distinct from the job-level `failed` dispatch.  The OCR polling loop,
however, never inspects the HTTP status code of a poll response: its
outcome depends only on the parsed bodies, so an HTTP error response is
not surfaced as a request-level error there and polling can continue
past it. -/
theorem poll_http_error_handling
    (rs rs2 : Nat → PollResponse) (init : String) (m n : Nat) :
    (n < m → (∀ k, k < n → pollOk (rs k)) →
        (∀ k, k ≤ n → cStatusAt rs init k ∈ convertContinue) →
        400 ≤ (rs n).statusCode →
        convertPollRun rs init m = .httpError (n + 1)
          ∧ convert_flow rs init m = .pollHttpError
          ∧ convertExitCode .pollHttpError = 1)
  ∧ ((∀ k, k < n → watchBenign (rs k)) → 400 ≤ (rs n).statusCode → n < m →
        watchRun rs m = .httpError n ∧ watchExitCode (.httpError n) = 1)
  ∧ ((∀ k, (rs k).jsonOk = (rs2 k).jsonOk ∧ (rs k).status = (rs2 k).status) →
        ocrPollRun rs m = ocrPollRun rs2 m) := by
  refine ⟨?_, ?_, ?_⟩
  · intro hnm hok hcont herr
    have habort : convertPollRun rs init m = .httpError (n + 1) :=
      convertPollGo_httpAbort rs init m n hok hcont herr hnm m 0 (by omega) (by omega)
    refine ⟨habort, ?_, rfl⟩
    simp only [convert_flow, habort]
  · intro hpre herr hnm
    exact ⟨watchGo_httpAbort rs m n hpre herr hnm m 0 none (by omega) (by omega),
      rfl⟩
  · intro h
    exact ocrPollGo_ignores_codes rs rs2 h m 0 "processing"

/-- **C2** counterexample.  Claim C2 as stated is false for the OCR
flow: its first poll returns HTTP 500, yet the loop issues a second
poll and reports the completion from it — it continued past an HTTP
error response instead of aborting with a request-level error. -/
theorem ocr_poll_continues_past_http_error :
    ocrPollRun (fun k => if k = 0 then ⟨500, true, some "processing", none⟩
        else ⟨200, true, some "completed", none⟩) 150 = .finished "completed" 2
  ∧ 400 ≤ ((fun k => if k = 0 then (⟨500, true, some "processing", none⟩ : PollResponse)
        else ⟨200, true, some "completed", none⟩) 0).statusCode :=
  ⟨rfl, by decide⟩

/-- Witness for C2: a convert-flow run whose second poll returns 503
aborts with the request-level error after 2 polls, and a watch run
whose first poll returns 500 aborts immediately with exit 1. -/
theorem poll_http_error_handling_witness :
    convertPollRun (fun k => if k = 0 then ⟨200, true, some "processing", none⟩
        else ⟨503, true, none, none⟩) "queued" 60 = .httpError 2
  ∧ watchRun (fun _ => ⟨500, true, some "processing", none⟩) 300 = .httpError 0 :=
  ⟨((poll_http_error_handling
      (fun k => if k = 0 then ⟨200, true, some "processing", none⟩
        else ⟨503, true, none, none⟩)
      (fun k => if k = 0 then ⟨200, true, some "processing", none⟩
        else ⟨503, true, none, none⟩) "queued" 60 1).1
      (by omega) (by decide) (by decide) (by decide)).1,
   ((poll_http_error_handling
      (fun _ => ⟨500, true, some "processing", none⟩)
      (fun _ => ⟨500, true, some "processing", none⟩) "x" 300 0).2.1
      (fun k hk => absurd hk (by omega)) (by decide) (by omega)).1⟩

/-- **C8** (amended).  The exit-status mapping for terminal polling
outcomes is flow-dependent, not uniform.  In the watch flow
(`check-status.py --watch`): a `cancelled` status exits with status 0,
but reaching the attempt ceiling prints the advisory and returns
normally — exit status 0, not non-zero.  In the convert flow
(`convert.py`): reaching the ceiling while still in the continue set
lands in the timeout branch and exits 1, but a `cancelled` status also
falls into that same timeout branch and exits 1 instead of 0. -/
theorem terminal_outcome_exit_codes
    (rs : Nat → PollResponse) (init : String) (m n : Nat) :
    ((∀ k, k < n → watchBenign (rs k)) →
        (rs n).statusCode < 400 → (rs n).jsonOk = true →
        (rs n).status = some "cancelled" → n < m →
        watchRun rs m = .cancelledExit n ∧ watchExitCode (.cancelledExit n) = 0)
  ∧ ((∀ k, k < m → watchBenign (rs k)) →
        watchRun rs m = .timeout m ∧ watchExitCode (.timeout m) = 0)
  ∧ (n ≤ m → (∀ k, k < n → pollOk (rs k)) →
        (∀ k, k < n → cStatusAt rs init k ∈ convertContinue) →
        cStatusAt rs init n = "cancelled" →
        convert_flow rs init m = .timeoutMsg ∧ convertExitCode .timeoutMsg = 1)
  ∧ ((∀ k, k < m → pollOk (rs k)) →
        (∀ k, k ≤ m → cStatusAt rs init k ∈ convertContinue) →
        convert_flow rs init m = .timeoutMsg ∧ convertExitCode .timeoutMsg = 1) := by
  refine ⟨?_, ?_, ?_, ?_⟩
  · intro hpre hcode hjson hst hnm
    exact ⟨watchGo_cancelled rs m n hpre hcode hjson hst hnm m 0 none
      (by omega) (by omega) (by simp), rfl⟩
  · intro hpre
    exact ⟨watchGo_timeout rs m hpre m 0 none (by omega), rfl⟩
  · intro hnm hok hcont hcanc
    have hstop : cStatusAt rs init n ∉ convertContinue := by
      rw [hcanc]
      decide
    have hrun : convertPollRun rs init m = .finished (cStatusAt rs init n) n :=
      convertPollGo_stop rs init m n hok hcont hstop hnm m 0 (by omega) (by omega)
    rw [hcanc] at hrun
    exact ⟨convert_flow_of_finished rs init m "cancelled" n hrun
      (by decide) (by decide), rfl⟩
  · intro hok hcont
    have hrun : convertPollRun rs init m = .finished (cStatusAt rs init m) m :=
      convertPollGo_timeout rs init m hok (fun k hk => hcont k (by omega))
        m 0 (by omega)
    have hne := convertContinue_ne (hcont m (Nat.le_refl m))
    exact ⟨convert_flow_of_finished rs init m _ m hrun hne.1 hne.2, rfl⟩

/-- **C8** counterexample.  Claim C8 as stated is false in both
directions: in the convert flow a job that polls as `cancelled` lands
in the timeout branch and the process exits 1 (the claim requires exit
0 for cancelled), while in the watch flow an all-`processing` run
reaches the 300-attempt ceiling, prints the advisory, and the process
exits 0 (the claim requires a non-zero exit for timeout). -/
theorem cancelled_and_timeout_exit_code_counterexample :
    (convert_flow (fun _ => ⟨200, true, some "cancelled", none⟩) "processing" 60 =
        .timeoutMsg
      ∧ convertExitCode .timeoutMsg = 1)
  ∧ (watchRun (fun _ => ⟨200, true, some "processing", none⟩) 300 = .timeout 300
      ∧ watchExitCode (.timeout 300) = 0) := by
  refine ⟨⟨rfl, rfl⟩, ?_, rfl⟩
  exact watchGo_timeout _ 300
    (fun k hk => ⟨by decide, rfl, "processing", rfl, by decide⟩) 300 0 none (by omega)

/-- Witness for C8: the watch flow exits 0 on an immediately-cancelled
job, and the convert flow exits 1 through the timeout branch when the
second poll reports `cancelled`. -/
theorem terminal_outcome_exit_codes_witness :
    (watchRun (fun _ => ⟨200, true, some "cancelled", none⟩) 300 = .cancelledExit 0
      ∧ watchExitCode (.cancelledExit 0) = 0)
  ∧ (convert_flow (fun _ => ⟨200, true, some "cancelled", none⟩) "processing" 60 =
        .timeoutMsg ∧ convertExitCode .timeoutMsg = 1) :=
  ⟨(terminal_outcome_exit_codes
      (fun _ => ⟨200, true, some "cancelled", none⟩) "processing" 300 0).1
      (fun k hk => absurd hk (by omega)) (by decide) rfl rfl (by omega),
   (terminal_outcome_exit_codes
      (fun _ => ⟨200, true, some "cancelled", none⟩) "processing" 60 1).2.2.1
      (by omega) (by decide) (by decide) rfl⟩

/-- Interior chunks fit entirely inside the file. -/
lemma chunk_inner (F C i : Nat) (hC : 0 < C) (hF : 0 < F)
    (hi : i + 1 < totalChunks F C) : i * C + C ≤ F := by
  have h1 : (i + 1) * C ≤ (totalChunks F C - 1) * C :=
    Nat.mul_le_mul_right C (by omega)
  have h2 := totalChunks_pred_mul_lt F C hC hF
  have hs : (i + 1) * C = i * C + C := Nat.succ_mul _ _
  obtain ⟨X, hX⟩ : ∃ X, i * C = X := ⟨_, rfl⟩
  obtain ⟨Z, hZ⟩ : ∃ Z, (totalChunks F C - 1) * C = Z := ⟨_, rfl⟩
  rw [hs, hX, hZ] at h1
  rw [hZ] at h2
  rw [hX]
  omega

/-- An empty file needs zero chunks. -/
lemma totalChunks_of_zero (C : Nat) (hC : 0 < C) : totalChunks 0 C = 0 := by
  unfold totalChunks
  exact Nat.div_eq_of_lt (by omega)

/-- Full characterization of the chunk reads: count, exact coverage,
byte totals, interior chunk lengths, and the final chunk length. -/
lemma chunksOf_spec (file : List Nat) (C : Nat) (hC : 0 < C) :
    (chunksOf file C).length = totalChunks file.length C
  ∧ (chunksOf file C).flatten = file
  ∧ ((chunksOf file C).map List.length).sum = file.length
  ∧ (∀ i l, i + 1 < totalChunks file.length C →
        (chunksOf file C)[i]? = some l → l.length = C)
  ∧ (∀ l, (chunksOf file C)[totalChunks file.length C - 1]? = some l →
        l.length = if file.length % C = 0 then C else file.length % C) := by
  have hflat : (chunksOf file C).flatten = file :=
    readChunks_join C _ file (le_totalChunks_mul file.length C hC)
  refine ⟨readChunks_length C _ file, hflat, ?_, ?_, ?_⟩
  · rw [← List.length_flatten, hflat]
  · intro i l hi hget
    have hF : 0 < file.length := by
      by_contra h
      have h0 : file.length = 0 := by omega
      have htc : totalChunks file.length C = 0 := by
        rw [h0]
        exact totalChunks_of_zero C hC
      omega
    unfold chunksOf at hget
    rw [readChunks_getElem? C _ i file (by omega)] at hget
    injection hget with h
    subst h
    rw [List.length_take, List.length_drop]
    have hin := chunk_inner file.length C i hC hF hi
    obtain ⟨X, hX⟩ : ∃ X, i * C = X := ⟨_, rfl⟩
    rw [hX] at hin ⊢
    omega
  · intro l hget
    unfold chunksOf at hget
    by_cases hF : file.length = 0
    · have htc : totalChunks file.length C = 0 := by
        rw [hF]
        exact totalChunks_of_zero C hC
      rw [htc] at hget
      simp [readChunks] at hget
    · have hF' : 0 < file.length := by omega
      have htc := totalChunks_pos file.length C hC hF'
      obtain ⟨p, hp⟩ : ∃ p, totalChunks file.length C = p + 1 :=
        ⟨totalChunks file.length C - 1, by omega⟩
      rw [hp] at hget
      simp only [Nat.add_sub_cancel] at hget
      rw [readChunks_getElem? C (p + 1) p file (by omega)] at hget
      injection hget with h
      subst h
      rw [List.length_take, List.length_drop]
      have h1 : p * C < file.length := by
        have h2 := totalChunks_pred_mul_lt file.length C hC hF'
        rw [hp] at h2
        simpa using h2
      have h2 : file.length ≤ (p + 1) * C := by
        have h3 := le_totalChunks_mul file.length C hC
        rw [hp] at h3
        exact h3
      rw [← last_chunk_len file.length C p hC h1 h2]
      have hs : (p + 1) * C = p * C + C := Nat.succ_mul _ _
      obtain ⟨X, hX⟩ : ∃ X, p * C = X := ⟨_, rfl⟩
      rw [hX] at h1 ⊢
      rw [hs, hX] at h2
      omega

/-- An `init` request at the head contributes no chunk indices. -/
lemma chunkIndices_cons_init (t : List UploadReq) :
    chunkIndices (.init :: t) = chunkIndices t := by
  simp [chunkIndices, List.filterMap_cons]

/-- A trailing `complete` request contributes no chunk indices. -/
lemma chunkIndices_append_complete (t : List UploadReq) :
    chunkIndices (t ++ [.complete]) = chunkIndices t := by
  simp [chunkIndices, List.filterMap_append, List.filterMap_cons]

/-- Branch equation: oversized file. -/
lemma upload_large_file_sizeError (srv : UploadServer) (file : List Nat)
    (mb : Nat) (hsize : fileSizeCap < file.length) :
    upload_large_file srv file mb = ([], .sizeError) := by
  simp only [upload_large_file]
  rw [if_pos hsize]

/-- Branch equation: the init request failed. -/
lemma upload_large_file_initError (srv : UploadServer) (file : List Nat)
    (mb : Nat) (hsize : ¬ fileSizeCap < file.length)
    (hinit : 400 ≤ srv.initCode) :
    upload_large_file srv file mb = ([.init], .initError) := by
  simp only [upload_large_file]
  rw [if_neg hsize, if_pos hinit]

/-- Branch equation: a chunk upload failed and aborted the session. -/
lemma upload_large_file_chunkError (srv : UploadServer) (file : List Nat)
    (mb i : Nat) (hsize : ¬ fileSizeCap < file.length)
    (hinit : ¬ 400 ≤ srv.initCode)
    (hE : (chunkLoop srv (mb * 1048576)
        (totalChunks file.length (mb * 1048576)) 0 file).2 = some i) :
    upload_large_file srv file mb =
      (.init :: (chunkLoop srv (mb * 1048576)
          (totalChunks file.length (mb * 1048576)) 0 file).1,
        .chunkError i) := by
  simp only [upload_large_file]
  rw [if_neg hsize, if_neg hinit, hE]

/-- Branch equation: every chunk succeeded and finalize was issued. -/
lemma upload_large_file_allChunksOk (srv : UploadServer) (file : List Nat)
    (mb : Nat) (hsize : ¬ fileSizeCap < file.length)
    (hinit : ¬ 400 ≤ srv.initCode)
    (hE : (chunkLoop srv (mb * 1048576)
        (totalChunks file.length (mb * 1048576)) 0 file).2 = none) :
    upload_large_file srv file mb =
      if 400 ≤ srv.completeCode then
        (.init :: (chunkLoop srv (mb * 1048576)
            (totalChunks file.length (mb * 1048576)) 0 file).1 ++ [.complete],
          .completeError)
      else
        (.init :: (chunkLoop srv (mb * 1048576)
            (totalChunks file.length (mb * 1048576)) 0 file).1 ++ [.complete],
          .ok) := by
  simp only [upload_large_file]
  rw [if_neg hsize, if_neg hinit, hE]

/-- An `init` at the head and a `complete` at the tail contribute no
chunk indices. -/
lemma chunkIndices_wrap (t : List UploadReq) :
    chunkIndices (.init :: t ++ [.complete]) = chunkIndices t := by
  simp [chunkIndices, List.filterMap_cons, List.filterMap_append]

/-- **C3** (confirmed).  For a file of `F` bytes and a configured chunk
size of `mb` MiB (`C = mb * 1048576` bytes), the upload computes
`ceil(F / C)` chunks; the chunk bodies sent are exactly the successive
reads, whose concatenation is the file; every chunk except possibly the
last has length `C`; the last (when any chunk exists) has length
`F mod C`, or `C` when `C` divides `F`; and the byte lengths sum to
`F`. -/
theorem chunked_upload_chunk_math (file : List Nat) (mb : Nat)
    (srv : UploadServer) (hmb : 1 ≤ mb)
    (hsrv : ∀ k, k < totalChunks file.length (mb * 1048576) →
      srv.chunkCode k < 400) :
    (chunksOf file (mb * 1048576)).length = totalChunks file.length (mb * 1048576)
  ∧ (chunksOf file (mb * 1048576)).flatten = file
  ∧ ((chunksOf file (mb * 1048576)).map List.length).sum = file.length
  ∧ (∀ i l, i + 1 < totalChunks file.length (mb * 1048576) →
        (chunksOf file (mb * 1048576))[i]? = some l → l.length = mb * 1048576)
  ∧ (∀ l, (chunksOf file (mb * 1048576))[totalChunks file.length (mb * 1048576) - 1]?
          = some l →
        l.length = if file.length % (mb * 1048576) = 0 then mb * 1048576
          else file.length % (mb * 1048576))
  ∧ chunkBodies (chunkLoop srv (mb * 1048576)
        (totalChunks file.length (mb * 1048576)) 0 file).1 =
      chunksOf file (mb * 1048576) := by
  have hC : 0 < mb * 1048576 := Nat.mul_pos (by omega) (by omega)
  obtain ⟨a, b, c, d, e⟩ := chunksOf_spec file (mb * 1048576) hC
  refine ⟨a, b, c, d, e, ?_⟩
  apply chunkLoop_bodies
  intro k hk
  rw [Nat.zero_add]
  exact hsrv k hk

/-- Witness for C3: a 7-byte file with a 1 MiB chunk size is sent as a
single chunk whose bytes concatenate back to the file and total 7. -/
theorem chunked_upload_chunk_math_witness :
    (chunksOf [0, 1, 2, 3, 4, 5, 6] (1 * 1048576)).flatten = [0, 1, 2, 3, 4, 5, 6]
  ∧ ((chunksOf [0, 1, 2, 3, 4, 5, 6] (1 * 1048576)).map List.length).sum =
      ([0, 1, 2, 3, 4, 5, 6] : List Nat).length :=
  ⟨(chunked_upload_chunk_math [0, 1, 2, 3, 4, 5, 6] 1 ⟨200, fun _ => 200, 200⟩
      (by omega) (fun k hk => (by decide : (200 : Nat) < 400))).2.1,
   (chunked_upload_chunk_math [0, 1, 2, 3, 4, 5, 6] 1 ⟨200, fun _ => 200, 200⟩
      (by omega) (fun k hk => (by decide : (200 : Nat) < 400))).2.2.1⟩

/-- Trace of a fully successful upload, as a `.1` projection. -/
lemma upload_allOk_fst (srv : UploadServer) (file : List Nat) (mb : Nat)
    (hsize : ¬ fileSizeCap < file.length) (hinit : ¬ 400 ≤ srv.initCode)
    (hE : (chunkLoop srv (mb * 1048576)
        (totalChunks file.length (mb * 1048576)) 0 file).2 = none) :
    (upload_large_file srv file mb).1 =
      .init :: (chunkLoop srv (mb * 1048576)
        (totalChunks file.length (mb * 1048576)) 0 file).1 ++ [.complete] := by
  rw [upload_large_file_allChunksOk srv file mb hsize hinit hE]
  split_ifs <;> rfl

/-- Result of a fully successful upload, as a `.2` projection. -/
lemma upload_allOk_snd (srv : UploadServer) (file : List Nat) (mb : Nat)
    (hsize : ¬ fileSizeCap < file.length) (hinit : ¬ 400 ≤ srv.initCode)
    (hE : (chunkLoop srv (mb * 1048576)
        (totalChunks file.length (mb * 1048576)) 0 file).2 = none) :
    (upload_large_file srv file mb).2 =
      if 400 ≤ srv.completeCode then UploadResult.completeError
      else UploadResult.ok := by
  rw [upload_large_file_allChunksOk srv file mb hsize hinit hE]
  split_ifs <;> rfl

/-- Trace of an upload aborted at chunk `i`, as a `.1` projection. -/
lemma upload_chunkError_fst (srv : UploadServer) (file : List Nat) (mb i : Nat)
    (hsize : ¬ fileSizeCap < file.length) (hinit : ¬ 400 ≤ srv.initCode)
    (hE : (chunkLoop srv (mb * 1048576)
        (totalChunks file.length (mb * 1048576)) 0 file).2 = some i) :
    (upload_large_file srv file mb).1 =
      .init :: (chunkLoop srv (mb * 1048576)
        (totalChunks file.length (mb * 1048576)) 0 file).1 := by
  rw [upload_large_file_chunkError srv file mb i hsize hinit hE]

/-- Result of an upload aborted at chunk `i`, as a `.2` projection. -/
lemma upload_chunkError_snd (srv : UploadServer) (file : List Nat) (mb i : Nat)
    (hsize : ¬ fileSizeCap < file.length) (hinit : ¬ 400 ≤ srv.initCode)
    (hE : (chunkLoop srv (mb * 1048576)
        (totalChunks file.length (mb * 1048576)) 0 file).2 = some i) :
    (upload_large_file srv file mb).2 = .chunkError i := by
  rw [upload_large_file_chunkError srv file mb i hsize hinit hE]

/-- **C4** (confirmed).  The upload session is strictly sequential:
chunk requests go out in index order 0, 1, 2, ... with no repetition
(and, the trace being a single sequence, no concurrency); the finalize
request is only sent after all `total_chunks` chunk responses were HTTP
successes; a chunk sent with index `j + 1` certifies that chunk `j`
succeeded; and the first chunk HTTP error aborts the session with exit
1 — every earlier chunk succeeded, the failing chunk was sent exactly
once (no retry), and no finalize is ever issued (no resume). -/
theorem upload_session_sequential_and_abort
    (srv : UploadServer) (file : List Nat) (mb : Nat) :
    chunkIndices (upload_large_file srv file mb).1 =
      List.range' 0 (chunkIndices (upload_large_file srv file mb).1).length
  ∧ (UploadReq.complete ∈ (upload_large_file srv file mb).1 →
      (chunkIndices (upload_large_file srv file mb).1).length =
          totalChunks file.length (mb * 1048576)
        ∧ ∀ i, i < totalChunks file.length (mb * 1048576) → srv.chunkCode i < 400)
  ∧ (∀ i, (upload_large_file srv file mb).2 = .chunkError i →
      400 ≤ srv.chunkCode i
        ∧ (∀ j, j < i → srv.chunkCode j < 400)
        ∧ UploadReq.complete ∉ (upload_large_file srv file mb).1
        ∧ chunkIndices (upload_large_file srv file mb).1 = List.range' 0 (i + 1)
        ∧ uploadErrorExit (.chunkError i) = some 1)
  ∧ (∀ j, (j + 1) ∈ chunkIndices (upload_large_file srv file mb).1 →
      srv.chunkCode j < 400) := by
  by_cases hsize : fileSizeCap < file.length
  · rw [upload_large_file_sizeError srv file mb hsize]
    refine ⟨rfl, ?_, ?_, ?_⟩
    · intro h
      simp at h
    · intro i h
      simp at h
    · intro j hj
      simp [chunkIndices] at hj
  · by_cases hinit : 400 ≤ srv.initCode
    · rw [upload_large_file_initError srv file mb hsize hinit]
      refine ⟨rfl, ?_, ?_, ?_⟩
      · intro h
        simp at h
      · intro i h
        simp at h
      · intro j hj
        simp [chunkIndices] at hj
    · have hidx := chunkLoop_indices srv (mb * 1048576)
        (totalChunks file.length (mb * 1048576)) 0 file
      rcases hE : (chunkLoop srv (mb * 1048576)
          (totalChunks file.length (mb * 1048576)) 0 file).2 with _ | i
      · have hfst := upload_allOk_fst srv file mb hsize hinit hE
        have hsnd := upload_allOk_snd srv file mb hsize hinit hE
        have hlen := chunkLoop_none_length srv (mb * 1048576)
          (totalChunks file.length (mb * 1048576)) 0 file hE
        have hcodes : ∀ k, k < totalChunks file.length (mb * 1048576) →
            srv.chunkCode k < 400 := by
          intro k hk
          have h := (chunkLoop_none_iff srv (mb * 1048576)
            (totalChunks file.length (mb * 1048576)) 0 file).mp hE k hk
          rwa [Nat.zero_add] at h
        refine ⟨?_, ?_, ?_, ?_⟩
        · rw [hfst, chunkIndices_wrap, hidx, List.length_range']
        · intro h
          constructor
          · rw [hfst, chunkIndices_wrap, hidx, List.length_range', hlen]
          · exact hcodes
        · intro i h
          rw [hsnd] at h
          split_ifs at h
        · intro j hj
          rw [hfst, chunkIndices_wrap, hidx, List.mem_range'_1] at hj
          rw [hlen] at hj
          exact hcodes j (by omega)
      · have hfst := upload_chunkError_fst srv file mb i hsize hinit hE
        have hsnd := upload_chunkError_snd srv file mb i hsize hinit hE
        obtain ⟨ha, hb, hcode, hprev, hlen⟩ := chunkLoop_some srv (mb * 1048576)
          (totalChunks file.length (mb * 1048576)) 0 file i hE
        have hnc : UploadReq.complete ∉ (upload_large_file srv file mb).1 := by
          rw [hfst]
          intro h
          rcases List.mem_cons.mp h with h' | h'
          · exact UploadReq.noConfusion h'
          · exact chunkLoop_no_complete srv (mb * 1048576)
              (totalChunks file.length (mb * 1048576)) 0 file h'
        refine ⟨?_, ?_, ?_, ?_⟩
        · rw [hfst, chunkIndices_cons_init, hidx, List.length_range']
        · intro h
          exact absurd h hnc
        · intro i' h
          rw [hsnd] at h
          injection h with hii
          subst hii
          refine ⟨hcode, fun j hj => hprev j (by omega) hj, hnc, ?_, rfl⟩
          rw [hfst, chunkIndices_cons_init, hidx, hlen]
          simp
        · intro j hj
          rw [hfst, chunkIndices_cons_init, hidx, List.mem_range'_1] at hj
          rw [hlen] at hj
          exact hprev j (by omega) (by omega)

/-- Witness for C4: a 3-byte file with a 1 MiB chunk size against an
all-success server uploads its single chunk and finalizes only after
it succeeded. -/
theorem upload_session_sequential_witness :
    (chunkIndices (upload_large_file ⟨200, fun _ => 200, 200⟩ [0, 1, 2] 1).1).length =
        totalChunks ([0, 1, 2] : List Nat).length (1 * 1048576)
      ∧ ∀ i, i < totalChunks ([0, 1, 2] : List Nat).length (1 * 1048576) →
          (⟨200, fun _ => 200, 200⟩ : UploadServer).chunkCode i < 400 :=
  (upload_session_sequential_and_abort ⟨200, fun _ => 200, 200⟩ [0, 1, 2] 1).2.1
    (by decide)

/-- **C5** (confirmed).  The 2 GiB cap is enforced before any network
request: a file strictly larger than 2147483648 bytes yields an empty
request trace (no session init) and the size-error exit with status 1,
while every file of at most 2147483648 bytes passes the size check and
never produces the size-error outcome. -/
theorem upload_file_size_cap (srv : UploadServer) (file : List Nat) (mb : Nat) :
    (fileSizeCap < file.length →
        upload_large_file srv file mb = ([], .sizeError)
          ∧ uploadErrorExit .sizeError = some 1)
  ∧ (file.length ≤ fileSizeCap → (upload_large_file srv file mb).2 ≠ .sizeError)
  ∧ fileSizeCap = 2147483648 := by
  refine ⟨?_, ?_, rfl⟩
  · intro h
    exact ⟨upload_large_file_sizeError srv file mb h, rfl⟩
  · intro h
    have hsize : ¬ fileSizeCap < file.length := by omega
    by_cases hinit : 400 ≤ srv.initCode
    · rw [upload_large_file_initError srv file mb hsize hinit]
      simp
    · rcases hE : (chunkLoop srv (mb * 1048576)
          (totalChunks file.length (mb * 1048576)) 0 file).2 with _ | i
      · rw [upload_allOk_snd srv file mb hsize hinit hE]
        split_ifs <;> simp
      · rw [upload_chunkError_snd srv file mb i hsize hinit hE]
        simp

/-- Witness for C5: a file one byte over the cap yields the size-error
exit with an empty trace; a one-byte file never does. -/
theorem upload_file_size_cap_witness :
    upload_large_file ⟨200, fun _ => 200, 200⟩ (List.replicate 2147483649 0) 5 =
      ([], .sizeError)
  ∧ (upload_large_file ⟨200, fun _ => 200, 200⟩ [7] 5).2 ≠ .sizeError :=
  ⟨((upload_file_size_cap ⟨200, fun _ => 200, 200⟩ (List.replicate 2147483649 0) 5).1
      (by rw [List.length_replicate]; decide)).1,
   (upload_file_size_cap ⟨200, fun _ => 200, 200⟩ [7] 5).2.1 (by decide)⟩

/-- **C6** (confirmed).  With a secret configured, verification succeeds
exactly when the supplied header equals the hex HMAC-SHA256 of the raw
body under that secret (the comparison being `hmac.compare_digest`,
whose value is string equality); with no secret configured it succeeds
for every body and every header value. -/
theorem webhook_signature_verification
    (hmacHex : String → List Nat → String) (secret : String)
    (payload : List Nat) (signature : String) :
    (secret ≠ "" →
        (verify_signature hmacHex secret payload signature = true ↔
          signature = hmacHex secret payload))
  ∧ (secret = "" → verify_signature hmacHex secret payload signature = true) := by
  constructor
  · intro hs
    unfold verify_signature
    rw [if_neg hs, beq_iff_eq]
    exact eq_comm
  · intro hs
    unfold verify_signature
    rw [if_pos hs]

/-- Witness for C6: with secret `"k"` the exact computed digest is
accepted, and with no secret an arbitrary header is accepted. -/
theorem webhook_signature_verification_witness :
    verify_signature (fun s _ => s ++ "X") "k" [1, 2] "kX" = true
  ∧ verify_signature (fun s _ => s ++ "X") "" [9] "whatever" = true :=
  ⟨((webhook_signature_verification (fun s _ => s ++ "X") "k" [1, 2] "kX").1
      (by decide)).mpr rfl,
   (webhook_signature_verification (fun s _ => s ++ "X") "" [9] "whatever").2 rfl⟩

/-- Every branch of the webhook event dispatch returns `status`,
`message` and `job_id` keys. -/
lemma process_webhook_event_keys (e : EventData) :
    (List.lookup "status" (process_webhook_event e)).isSome = true
  ∧ (List.lookup "message" (process_webhook_event e)).isSome = true
  ∧ (List.lookup "job_id" (process_webhook_event e)).isSome = true := by
  unfold process_webhook_event
  split_ifs <;> simp [List.lookup]

/-- **C7** (confirmed).  The webhook endpoint returns 401 when a secret
is configured and the signature does not verify; otherwise 400 on an
unparsable body, 500 when processing raises (a parsable non-object
body), and 200 with a JSON body carrying `status`, `message` and
`job_id` keys on every event object.  In particular the
`conversion.failed` scenario with no secret yields 200 with status
`failed`, job_id `j1` and error `bad input`. -/
theorem webhook_endpoint_responses
    (hmacHex : String → List Nat → String) (secret : String)
    (rawBody : List Nat) (sigHeader : Option String) (parsed : ParsedBody)
    (e : EventData) :
    (secret ≠ "" →
        verify_signature hmacHex secret rawBody (sigHeader.getD "") = false →
        webhook hmacHex secret rawBody sigHeader parsed =
          (401, [("error", .str "Invalid signature")]))
  ∧ (¬ (secret ≠ "" ∧
        verify_signature hmacHex secret rawBody (sigHeader.getD "") = false) →
      webhook hmacHex secret rawBody sigHeader .invalid =
          (400, [("error", .str "Invalid JSON")])
        ∧ webhook hmacHex secret rawBody sigHeader .nonObject =
            (500, [("error", .str "Internal server error")])
        ∧ (webhook hmacHex secret rawBody sigHeader (.obj e)).1 = 200
        ∧ (List.lookup "status"
            (webhook hmacHex secret rawBody sigHeader (.obj e)).2).isSome = true
        ∧ (List.lookup "message"
            (webhook hmacHex secret rawBody sigHeader (.obj e)).2).isSome = true
        ∧ (List.lookup "job_id"
            (webhook hmacHex secret rawBody sigHeader (.obj e)).2).isSome = true)
  ∧ webhook hmacHex "" [] none
      (.obj ⟨some "conversion.failed", some "j1", none,
        some ⟨some "bad input", some "E1"⟩, none, none⟩) =
      (200, [("status", .str "failed"),
             ("message", .str "Conversion failed event processed"),
             ("job_id", .str "j1"),
             ("error", .str "bad input")]) := by
  refine ⟨?_, ?_, rfl⟩
  · intro hs hv
    unfold webhook
    rw [if_pos ⟨hs, hv⟩]
  · intro hcond
    refine ⟨?_, ?_, ?_, ?_, ?_, ?_⟩
    · unfold webhook
      rw [if_neg hcond]
    · unfold webhook
      rw [if_neg hcond]
    · unfold webhook
      rw [if_neg hcond]
    · unfold webhook
      rw [if_neg hcond]
      exact (process_webhook_event_keys e).1
    · unfold webhook
      rw [if_neg hcond]
      exact (process_webhook_event_keys e).2.1
    · unfold webhook
      rw [if_neg hcond]
      exact (process_webhook_event_keys e).2.2
/-- Witness for C7: a configured secret with a wrong header yields 401,
and with no secret an unparsable body yields 400. -/
theorem webhook_endpoint_responses_witness :
    webhook (fun _ _ => "sig") "k" [1] (some "bad") .invalid =
      (401, [("error", .str "Invalid signature")])
  ∧ webhook (fun _ _ => "sig") "" [1] none .invalid =
      (400, [("error", .str "Invalid JSON")]) :=
  ⟨(webhook_endpoint_responses (fun _ _ => "sig") "k" [1] (some "bad") .invalid
      ⟨none, none, none, none, none, none⟩).1 (by decide) (by decide),
   ((webhook_endpoint_responses (fun _ _ => "sig") "" [1] none .invalid
      ⟨none, none, none, none, none, none⟩).2.1 (by decide)).1⟩

/-- A keyboard interrupt during the `download-result.py` write loop
reaches the cleanup handler: the partial file is unlinked and the
process exits 1, whatever was already written. -/
lemma downloadResultGo_interrupt :
    ∀ (pre : List DlEvent) (w : List Nat) (post : List DlEvent),
      interruptFree pre →
      downloadResultGo w (pre ++ .interrupt :: post) = (none, 1) := by
  intro pre
  induction pre with
  | nil => intro w post _; rfl
  | cons e rest ih =>
    intro w post hfree
    cases e with
    | chunk d =>
      simp only [List.cons_append, downloadResultGo]
      exact ih _ post (fun h => hfree (List.mem_cons_of_mem _ h))
    | interrupt =>
      exact absurd (List.mem_cons_self _ _) hfree

/-- A keyboard interrupt during the `convert.py` write loop reaches a
handler with no cleanup: everything already written stays on disk and
the process exits 1. -/
lemma convertDownloadGo_interrupt :
    ∀ (pre : List DlEvent) (w : List Nat) (post : List DlEvent),
      interruptFree pre →
      convertDownloadGo w (pre ++ .interrupt :: post) =
        (some (w ++ writtenBytes pre), 1) := by
  intro pre
  induction pre with
  | nil =>
    intro w post _
    simp [convertDownloadGo, writtenBytes]
  | cons e rest ih =>
    intro w post hfree
    cases e with
    | chunk d =>
      simp only [List.cons_append, convertDownloadGo, List.append_eq]
      rw [ih _ post (fun h => hfree (List.mem_cons_of_mem _ h))]
      have hw : writtenBytes (DlEvent.chunk d :: rest) = d ++ writtenBytes rest := by
        simp [writtenBytes, List.filterMap_cons]
      rw [hw]
      by_cases hd : d.isEmpty = true
      · rw [if_pos hd, List.isEmpty_iff.mp hd]
        simp
      · rw [if_neg hd, List.append_assoc]
    | interrupt =>
      exact absurd (List.mem_cons_self _ _) hfree

/-- An uninterrupted `download-result.py` download writes all received
bytes and leaves the function normally (exit 0). -/
lemma downloadResultGo_complete :
    ∀ (evs : List DlEvent) (w : List Nat), interruptFree evs →
      downloadResultGo w evs = (some (w ++ writtenBytes evs), 0) := by
  intro evs
  induction evs with
  | nil =>
    intro w _
    simp [downloadResultGo, writtenBytes]
  | cons e rest ih =>
    intro w hfree
    cases e with
    | chunk d =>
      simp only [downloadResultGo]
      rw [ih _ (fun h => hfree (List.mem_cons_of_mem _ h))]
      have hw : writtenBytes (DlEvent.chunk d :: rest) = d ++ writtenBytes rest := by
        simp [writtenBytes, List.filterMap_cons]
      rw [hw]
      by_cases hd : d.isEmpty = true
      · rw [if_pos hd, List.isEmpty_iff.mp hd]
        simp
      · rw [if_neg hd, List.append_assoc]
    | interrupt =>
      exact absurd (List.mem_cons_self _ _) hfree

/-- An uninterrupted `convert.py` download writes all received bytes
and continues normally (exit 0). -/
lemma convertDownloadGo_complete :
    ∀ (evs : List DlEvent) (w : List Nat), interruptFree evs →
      convertDownloadGo w evs = (some (w ++ writtenBytes evs), 0) := by
  intro evs
  induction evs with
  | nil =>
    intro w _
    simp [convertDownloadGo, writtenBytes]
  | cons e rest ih =>
    intro w hfree
    cases e with
    | chunk d =>
      simp only [convertDownloadGo]
      rw [ih _ (fun h => hfree (List.mem_cons_of_mem _ h))]
      have hw : writtenBytes (DlEvent.chunk d :: rest) = d ++ writtenBytes rest := by
        simp [writtenBytes, List.filterMap_cons]
      rw [hw]
      by_cases hd : d.isEmpty = true
      · rw [if_pos hd, List.isEmpty_iff.mp hd]
        simp
      · rw [if_neg hd, List.append_assoc]
    | interrupt =>
      exact absurd (List.mem_cons_self _ _) hfree

/-- **C9** (amended).  On a keyboard interrupt during a download, both
flows abort immediately with a non-zero exit, but only the
`download-result.py` flow deletes the partially-written output file
before exiting; the `convert.py` flow's interrupt handler performs no
cleanup, so the partial file remains on disk there.  Uninterrupted
downloads leave the fully-written file in both flows. -/
theorem download_interrupt_cleanup
    (pre post evs : List DlEvent) (hpre : interruptFree pre)
    (hevs : interruptFree evs) :
    downloadResultRun (pre ++ .interrupt :: post) = (none, 1)
  ∧ convertDownloadRun (pre ++ .interrupt :: post) = (some (writtenBytes pre), 1)
  ∧ downloadResultRun evs = (some (writtenBytes evs), 0)
  ∧ convertDownloadRun evs = (some (writtenBytes evs), 0) := by
  refine ⟨downloadResultGo_interrupt pre [] post hpre, ?_, ?_, ?_⟩
  · have h := convertDownloadGo_interrupt pre [] post hpre
    rwa [List.nil_append] at h
  · have h := downloadResultGo_complete evs [] hevs
    rwa [List.nil_append] at h
  · have h := convertDownloadGo_complete evs [] hevs
    rwa [List.nil_append] at h

/-- **C9** counterexample.  Claim C9 as stated is false: an interrupt
after three bytes of a `convert.py` download exits 1 but leaves the
partial file `[1, 2, 3]` on disk — no unlink happens in that flow —
whereas the same events in the `download-result.py` flow delete it. -/
theorem convert_download_interrupt_leaves_partial_file :
    convertDownloadRun [.chunk [1, 2, 3], .interrupt] = (some [1, 2, 3], 1)
  ∧ (some [1, 2, 3] : Option (List Nat)) ≠ none
  ∧ downloadResultRun [.chunk [1, 2, 3], .interrupt] = (none, 1) :=
  ⟨rfl, by decide, rfl⟩

/-- Witness for C9: one chunk then an interrupt — the download-result
flow ends with no file, the convert flow with the partial file. -/
theorem download_interrupt_cleanup_witness :
    downloadResultRun [.chunk [7], .interrupt] = (none, 1)
  ∧ convertDownloadRun [.chunk [7], .interrupt] = (some [7], 1) :=
  ⟨(download_interrupt_cleanup [.chunk [7]] [] [] (by decide) (by decide)).1,
   (download_interrupt_cleanup [.chunk [7]] [] [] (by decide) (by decide)).2.1⟩

/-- **C10** (confirmed).  When the job-status body is a JSON array, the
download flow proceeds with its first element exactly as it would with
that object; an empty array is reported as an error with exit 1 and no
download request is attempted. -/
theorem jobs_list_response_resolution
    (code : Nat) (j : JobDesc) (rest : List JobDesc) (hcode : code < 400) :
    download_result code (.arr (j :: rest)) = download_result code (.obj j)
  ∧ download_result code (.arr []) = .emptyList
  ∧ drErrorExit .emptyList = some 1
  ∧ drAttemptsDownload .emptyList = false := by
  have hn : ¬ 400 ≤ code := by omega
  refine ⟨?_, ?_, rfl, rfl⟩
  · simp [download_result, hn]
  · simp [download_result, hn]

/-- Witness for C10: a singleton array resolves exactly like its only
element, and an empty array is the empty-response error. -/
theorem jobs_list_response_resolution_witness :
    download_result 200 (.arr [⟨some "completed", some "u"⟩]) =
      download_result 200 (.obj ⟨some "completed", some "u"⟩)
  ∧ download_result 200 (.arr []) = .emptyList :=
  ⟨(jobs_list_response_resolution 200 ⟨some "completed", some "u"⟩ [] (by omega)).1,
   (jobs_list_response_resolution 200 ⟨some "completed", some "u"⟩ [] (by omega)).2.1⟩
